import Mathlib

/-!
Verification of the `prysm` colorimetry module (`prysm/colorimetry.py`).

The development has three layers:

* `Colorimetry.FP` — floating-point values modelled as exact rationals
  extended with signed infinities and a not-a-number value.  Arithmetic on
  finite values is exact (rounding is not modelled; none of the verified
  claims depends on rounding), while the special values follow IEEE-754
  semantics as used by numpy: division of a nonzero finite value by zero
  yields an infinity, `0 / 0` yields NaN, comparisons involving NaN are
  false, numpy emits at most a warning for these, never an exception.
  Signed zero is not modelled; it influences only the sign of infinite
  results, never whether a result is NaN.

* the scalar conversion layer (`Colorimetry.XYZ_to_xyY`, ...) — the
  element-wise numeric core of the vectorized conversion functions,
  written for a single channel tuple.  On a rank-1 numpy array the
  source's `arr[..., i]` reads the i-th component and `np.stack` on the
  trailing axis rebuilds the tuple, so the tuple functions below are the
  source formulas verbatim.

* the ndarray layer (`Colorimetry.ND`) — a nested-list model of numpy
  arrays for the claims about shapes (trailing-axis behaviour, unpacking
  along the first axis, stacking on a new trailing axis).
-/

namespace Colorimetry

/-- CIE constant, `colorimetry.py` line 17: `CIE_K = 24389 / 27`. -/
def CIE_K : ℚ := 24389 / 27

/-- CIE constant, `colorimetry.py` line 18: `CIE_E = 216 / 24389`. -/
def CIE_E : ℚ := 216 / 24389

/-- A floating-point value: an exact finite rational, a signed infinity
(`inf true` is negative infinity), or NaN. -/
inductive FP where
  | fin : ℚ → FP
  | inf : Bool → FP
  | nan : FP
deriving DecidableEq, Repr

namespace FP

/-- IEEE negation. -/
def neg : FP → FP
  | .fin a => .fin (-a)
  | .inf s => .inf (!s)
  | .nan => .nan

/-- IEEE addition (finite part exact). -/
def add : FP → FP → FP
  | .nan, _ => .nan
  | _, .nan => .nan
  | .inf s, .inf t => if s = t then .inf s else .nan
  | .inf s, .fin _ => .inf s
  | .fin _, .inf t => .inf t
  | .fin a, .fin b => .fin (a + b)

/-- IEEE subtraction. -/
def sub (x y : FP) : FP := add x (neg y)

/-- IEEE multiplication (finite part exact); `0 * inf = NaN`. -/
def mul : FP → FP → FP
  | .nan, _ => .nan
  | _, .nan => .nan
  | .inf s, .inf t => .inf (xor s t)
  | .inf s, .fin b => if b = 0 then .nan else .inf (xor s (decide (b < 0)))
  | .fin a, .inf t => if a = 0 then .nan else .inf (xor t (decide (a < 0)))
  | .fin a, .fin b => .fin (a * b)

/-- IEEE division (finite part exact): a nonzero finite value divided by
zero is an infinity, `0 / 0` is NaN.  The sign of zero is not modelled, so
the infinity produced by division by zero carries the numerator's sign. -/
def div : FP → FP → FP
  | .nan, _ => .nan
  | _, .nan => .nan
  | .inf _, .inf _ => .nan
  | .inf s, .fin b => .inf (xor s (decide (b < 0)))
  | .fin _, .inf _ => .fin 0
  | .fin a, .fin b =>
      if b = 0 then (if a = 0 then .nan else .inf (decide (a < 0)))
      else .fin (a / b)

/-- IEEE strict order: any comparison involving NaN is false. -/
def lt : FP → FP → Bool
  | .fin a, .fin b => decide (a < b)
  | .fin _, .inf s => !s
  | .inf s, .fin _ => s
  | .inf s, .inf t => s && !t
  | _, _ => false

/-- Python `x > y`, used by `np.where(L > ...)`. -/
def gt (x y : FP) : Bool := lt y x

/-- Natural-number power, modelling numpy `x ** n` for a literal
exponent (only `** 3` occurs in the source). -/
def pown (x : FP) : Nat → FP
  | 0 => .fin 1
  | n + 1 => mul x (pown x n)

instance : Add FP := ⟨FP.add⟩
instance : Sub FP := ⟨FP.sub⟩
instance : Mul FP := ⟨FP.mul⟩
instance : Div FP := ⟨FP.div⟩
instance : Neg FP := ⟨FP.neg⟩

/-- True when the value is an infinity or NaN. -/
def nonFinite : FP → Bool
  | .fin _ => false
  | _ => true

end FP

/-- Abbreviation for a finite floating-point value. -/
def q (a : ℚ) : FP := FP.fin a

/-- `XYZ_to_xyY`, `colorimetry.py` lines 293-316, element-wise core:
`x = X / (X + Y + Z)`, `y = Y / (X + Y + Z)`, third channel is `Y`
unchanged. -/
def XYZ_to_xyY (XYZ : FP × FP × FP) : FP × FP × FP :=
  let X := XYZ.1; let Y := XYZ.2.1; let Z := XYZ.2.2
  let x := X / (X + Y + Z)
  let y := Y / (X + Y + Z)
  (x, y, Y)

/-- `xyY_to_xy`, `colorimetry.py` lines 358-380, on a single rank-1
triple: the trailing dimension is 3, so the source unpacks the three
components and stacks the first two. -/
def xyY_to_xy (xyY : FP × FP × FP) : FP × FP :=
  (xyY.1, xyY.2.1)

/-- `XYZ_to_xy`, `colorimetry.py` lines 318-334: composition of
`XYZ_to_xyY` and `xyY_to_xy`. -/
def XYZ_to_xy (XYZ : FP × FP × FP) : FP × FP :=
  xyY_to_xy (XYZ_to_xyY XYZ)

/-- `XYZ_to_uv`, `colorimetry.py` lines 336-356, element-wise core:
`u = 4X / (X + 15Y + 3Z)`, `v = 9Y / (X + 15Y + 3Z)`. -/
def XYZ_to_uv (XYZ : FP × FP × FP) : FP × FP :=
  let X := XYZ.1; let Y := XYZ.2.1; let Z := XYZ.2.2
  let u := (q 4 * X) / (X + q 15 * Y + q 3 * Z)
  let v := (q 9 * Y) / (X + q 15 * Y + q 3 * Z)
  (u, v)

/-- `xyY_to_XYZ`, `colorimetry.py` lines 382-405, element-wise core:
`X = xY / y`, `Z = (1 - x - y) Y / y`. -/
def xyY_to_XYZ (xyY : FP × FP × FP) : FP × FP × FP :=
  let x := xyY.1; let y := xyY.2.1; let Y := xyY.2.2
  let X := (x * Y) / y
  let Z := ((q 1 - x - y) * Y) / y
  (X, Y, Z)

/-- `Luv_to_XYZ`, `colorimetry.py` lines 456-490: inverse CIE 1976
L* u' v' transform with the hard-coded D50 white point.  `np.where`
evaluates both branches element-wise and selects by `L > CIE_E * CIE_K`. -/
def Luv_to_XYZ (Luv : FP × FP × FP) : FP × FP × FP :=
  let L := Luv.1; let u := Luv.2.1; let v := Luv.2.2
  let X_r := q 0.9642; let Y_r := q 1.0; let Z_r := q 0.8251
  let Y := if FP.gt L (q (CIE_E * CIE_K))
    then ((L + q 16) / q 116).pown 3
    else L / q CIE_K
  let a := q (1 / 3) *
    ((q 52 * L / (u + q 13 * L * (q 4 * X_r / (X_r + q 15 * Y_r + q 3 * Z_r)))) - q 1)
  let b := q (-5) * Y
  let c := q (-1 / 3)
  let d := Y * (q 39 * L / (v + q 13 * L * (q 9 * Y_r / (X_r + q 15 * Y_r + q 3 * Z_r))) - q 5)
  let X := (d - b) / (a - c)
  let Z := X * a + b
  (X, Y, Z)

/-- `Luv_to_uv`, `colorimetry.py` lines 492-508: composition of
`Luv_to_XYZ` and `XYZ_to_uv`. -/
def Luv_to_uv (Luv : FP × FP × FP) : FP × FP :=
  XYZ_to_uv (Luv_to_XYZ Luv)

/-- `Luv_uv_to_xy`, `colorimetry.py` lines 510-531, element-wise core:
`x = 9u / (6u - 16v + 12)`, `y = 4v / (6u - 16v + 12)`. -/
def Luv_uv_to_xy (uv : FP × FP) : FP × FP :=
  let u := uv.1; let v := uv.2
  let x := (q 9 * u) / (q 6 * u - q 16 * v + q 12)
  let y := (q 4 * v) / (q 6 * u - q 16 * v + q 12)
  (x, y)

/-- The behaviour `XYZ_to_xyY` and `XYZ_to_xy` exhibit at a zero
tristimulus sum: the x and y chromaticities are non-finite, and each is
NaN exactly when its numerator (X respectively Y) is also zero
(otherwise it is an infinity). -/
def ZeroSumBehavior (X Y Z : ℚ) : Prop :=
  (FP.nonFinite (XYZ_to_xyY (q X, q Y, q Z)).1 = true
    ∧ ((XYZ_to_xyY (q X, q Y, q Z)).1 = FP.nan ↔ X = 0))
  ∧ (FP.nonFinite (XYZ_to_xyY (q X, q Y, q Z)).2.1 = true
    ∧ ((XYZ_to_xyY (q X, q Y, q Z)).2.1 = FP.nan ↔ Y = 0))
  ∧ (FP.nonFinite (XYZ_to_xy (q X, q Y, q Z)).1 = true
    ∧ ((XYZ_to_xy (q X, q Y, q Z)).1 = FP.nan ↔ X = 0))
  ∧ (FP.nonFinite (XYZ_to_xy (q X, q Y, q Z)).2 = true
    ∧ ((XYZ_to_xy (q X, q Y, q Z)).2 = FP.nan ↔ Y = 0))

/-- The behaviour `XYZ_to_uv` exhibits when its own denominator
X + 15 Y + 3 Z is zero: u and v are non-finite, NaN exactly when the
numerator (4 X respectively 9 Y) is also zero. -/
def ZeroUvDenomBehavior (X Y Z : ℚ) : Prop :=
  (FP.nonFinite (XYZ_to_uv (q X, q Y, q Z)).1 = true
    ∧ ((XYZ_to_uv (q X, q Y, q Z)).1 = FP.nan ↔ X = 0))
  ∧ (FP.nonFinite (XYZ_to_uv (q X, q Y, q Z)).2 = true
    ∧ ((XYZ_to_uv (q X, q Y, q Z)).2 = FP.nan ↔ Y = 0))

/-- The behaviour `xyY_to_XYZ` exhibits at y = 0: the X and Z outputs
are non-finite, NaN exactly when the corresponding numerator (x Y
respectively (1 - x - y) Y) is also zero. -/
def ZeroYBehavior (x y Yv : ℚ) : Prop :=
  (FP.nonFinite (xyY_to_XYZ (q x, q y, q Yv)).1 = true
    ∧ ((xyY_to_XYZ (q x, q y, q Yv)).1 = FP.nan ↔ x * Yv = 0))
  ∧ (FP.nonFinite (xyY_to_XYZ (q x, q y, q Yv)).2.2 = true
    ∧ ((xyY_to_XYZ (q x, q y, q Yv)).2.2 = FP.nan ↔ (1 - x - y) * Yv = 0))

/-- Kinds of Python exception observed by the modelled code paths:
`ImportError` (raised by `check_colour` and by a failed `import`),
`NameError` (referencing the undefined global `colour` when the import
failed), and `ValueError` (argument-contract violations and numpy
zero-size reductions). -/
inductive PyErr where
  | importError : String → PyErr
  | nameError : String → PyErr
  | valueError : String → PyErr
deriving DecidableEq, Repr

/-- `Spectrum.__init__`, `colorimetry.py` lines 23-39: stores the two
arrays as given; no relation between them is checked.  The `meta` dict
(always created empty) is omitted. -/
structure Spectrum where
  wavelengths : List ℚ
  values : List ℚ
deriving DecidableEq, Repr

/-- `np.searchsorted(a, v)` with the default left side on a sorted
array: the first insertion index, equal to the number of elements
strictly below `v`.  (On unsorted input numpy's binary search returns
garbage; `normalize_spectrum` is only claimed for sorted wavelengths.) -/
def searchsorted (l : List ℚ) (x : ℚ) : Nat := l.countP (fun w => decide (w < x))

/-- `ndarray.max()` of a nonempty array; numpy raises `ValueError` on an
empty one, which the caller models explicitly, so the `[]` result here
is never observed. -/
def listMax : List ℚ → ℚ
  | [] => 0
  | v :: vs => vs.foldl max v

/-- `normalize_spectrum`, `colorimetry.py` lines 194-206:
`low, high = searchsorted(wvl, 400), searchsorted(wvl, 700)`, then a new
`Spectrum(wvl, vals / vals[low:high].max())`.  The slice `vals[low:high]`
is `drop low` then `take (high - low)`; `.max()` of an empty slice raises
numpy's zero-size reduction `ValueError`. -/
def normalize_spectrum (s : Spectrum) : Except PyErr Spectrum :=
  let wvl := s.wavelengths
  let vals := s.values
  let low := searchsorted wvl 400
  let high := searchsorted wvl 700
  match (vals.drop low).take (high - low) with
  | [] => .error (.valueError "zero-size array to reduction operation maximum which has no identity")
  | v :: vs => .ok ⟨wvl, vals.map (fun t => t / listMax (v :: vs))⟩

/-- The module-level `import colour` statement, `colorimetry.py` line 7:
importing an absent module raises `ImportError`.  The parameter
`colourAvailable` models whether the optional dependency is installed. -/
def import_colour (colourAvailable : Bool) : Except PyErr Unit :=
  if colourAvailable then .ok ()
  else .error (.importError "No module named colour")

/-- Module import of `colorimetry.py`, lines 6-10: the `try`/`except
ImportError: pass` around `import colour` swallows the failure, so the
module imports successfully whether or not `colour` is installed. -/
def colorimetry_module_init (colourAvailable : Bool) : Except PyErr Unit :=
  match import_colour colourAvailable with
  | .ok _ => .ok ()
  | .error (.importError _) => .ok ()
  | .error e => .error e

/-- `check_colour`, `colorimetry.py` lines 221-226: raises a descriptive
`ImportError` when the `colour` name is missing from the module globals
(which is the case exactly when the import failed). -/
def check_colour (colourAvailable : Bool) : Except PyErr Unit :=
  if colourAvailable then .ok ()
  else .error (.importError
    "prysm colorimetry requires the colour package, see http://colour-science.org/installation-guide/")

/-- Modelled from the spec: the external colour-science collaborator's
XYZ to Luv conversion (spec section 6 lists XYZ/Luv conversions among
the services of the optional library; its internals are not part of this
repository, so a fixed total computation stands in when the library is
installed).  An attribute access `colour.XYZ_to_Luv` when the import
failed raises `NameError` at the point of call, because the global name
`colour` was never bound. -/
def colour_XYZ_to_Luv (avail : Bool) (xyz : Option ℚ × Option ℚ × Option ℚ) :
    Except PyErr (ℚ × ℚ × ℚ) :=
  if avail then .ok (xyz.1.getD 0, xyz.2.1.getD 0, xyz.2.2.getD 0)
  else .error (.nameError "name colour is not defined")

/-- Modelled from the spec: the external library's Luv to uv conversion;
raises `NameError` when `colour` is absent, total otherwise. -/
def colour_Luv_to_uv (avail : Bool) (luv : Option ℚ × ℚ × ℚ) :
    Except PyErr (ℚ × ℚ) :=
  if avail then .ok (luv.2.1, luv.2.2)
  else .error (.nameError "name colour is not defined")

/-- Modelled from the spec: the external library's XYZ to xy conversion;
raises `NameError` when `colour` is absent, total otherwise. -/
def colour_XYZ_to_xy (avail : Bool) (xyz : ℚ × ℚ × ℚ) :
    Except PyErr (ℚ × ℚ) :=
  if avail then .ok (xyz.1, xyz.2.1)
  else .error (.nameError "name colour is not defined")

/-- Modelled from the spec: the external library's spectral power
distribution construction, alignment to the 360-780 nm grid and
standard-observer integration (`colorimetry.py` lines 112-118), treated
as one total external computation; it is only reached after
`check_colour` has succeeded. -/
def colour_spectral_to_XYZ (s : Spectrum) : ℚ × ℚ × ℚ :=
  (listMax s.values, listMax s.values, listMax s.values)

/-- `CIEXYZ.__init__`, `colorimetry.py` lines 74-90: plain coordinate
container. -/
structure CIEXYZ where
  x : ℚ
  y : ℚ
  z : ℚ
deriving DecidableEq, Repr

/-- `CIEXYZ.to_xy`, `colorimetry.py` lines 92-96: `check_colour()` then
`colour.XYZ_to_xy((x, y, z))`. -/
def CIEXYZ.to_xy (avail : Bool) (c : CIEXYZ) : Except PyErr (ℚ × ℚ) := do
  let _ ← check_colour avail
  colour_XYZ_to_xy avail (c.x, c.y, c.z)

/-- `CIEXYZ.from_spectrum`, `colorimetry.py` lines 98-119:
`check_colour()` first, then `normalize_spectrum`, then the external
spectral integration. -/
def CIEXYZ.from_spectrum (avail : Bool) (s : Spectrum) : Except PyErr CIEXYZ := do
  let _ ← check_colour avail
  let s2 ← normalize_spectrum s
  let xyz := colour_spectral_to_XYZ s2
  pure ⟨xyz.1, xyz.2.1, xyz.2.2⟩

/-- `CIELUV.__init__`, `colorimetry.py` lines 128-144: `u`, `v` and an
optional `l` (default `None` in the source). -/
structure CIELUV where
  u : ℚ
  v : ℚ
  l : Option ℚ
deriving DecidableEq, Repr

/-- `CIELUV.to_uv`, `colorimetry.py` lines 146-149: calls
`colour.Luv_to_uv((l, u, v))` directly, with no `check_colour` guard. -/
def CIELUV.to_uv (avail : Bool) (c : CIELUV) : Except PyErr (ℚ × ℚ) :=
  colour_Luv_to_uv avail (c.l, c.u, c.v)

/-- `CIELUV.from_XYZ`, `colorimetry.py` lines 151-178: if `ciexyz` is
given its coordinates replace `x`, `y`, `z`; otherwise `ValueError` is
raised when `x`, `y` and `z` are all `None`.  The surviving coordinates
are handed to `colour.XYZ_to_Luv` (no `check_colour` guard), and the
result is repacked as `CIELUV(u, v, l)`. -/
def CIELUV.from_XYZ (avail : Bool) (ciexyz : Option CIEXYZ)
    (x y z : Option ℚ) : Except PyErr CIELUV := do
  let args : Option ℚ × Option ℚ × Option ℚ ←
    match ciexyz with
    | some c => pure (some c.x, some c.y, some c.z)
    | none =>
        if x = none ∧ y = none ∧ z = none then
          Except.error (.valueError "all values are None")
        else pure (x, y, z)
  let luv ← colour_XYZ_to_Luv avail args
  pure ⟨luv.2.1, luv.2.2, some luv.1⟩

/-- `CIELUV.from_spectrum`, `colorimetry.py` lines 180-192. -/
def CIELUV.from_spectrum (avail : Bool) (s : Spectrum) : Except PyErr CIELUV := do
  let xyz ← CIEXYZ.from_spectrum avail s
  CIELUV.from_XYZ avail (some xyz) none none none

/-- True exactly for a `ValueError` result. -/
def isValueError : Except PyErr α → Bool
  | .error (.valueError _) => true
  | _ => false

/-- True exactly for an `ImportError` result. -/
def isImportError : Except PyErr α → Bool
  | .error (.importError _) => true
  | _ => false

/-- Stated from the spec words of C7, for comparison with the code: the
values paired with wavelengths in the half-open visible window
[400, 700).  (`normalize_spectrum` is proved to divide by the maximum of
this list; the claim's closed window [400, 700] is refuted.) -/
def visibleWindowValues (s : Spectrum) : List ℚ :=
  ((s.wavelengths.zip s.values).filter
    (fun p => decide (400 ≤ p.1) && decide (p.1 < 700))).map Prod.snd

/-- Stated from the spec words of C7: the values paired with wavelengths
in the closed window [400, 700], the natural reading of the claim's
"inside the 400-700 nm window".  Used only by the counterexample. -/
def closedWindowValues (s : Spectrum) : List ℚ :=
  ((s.wavelengths.zip s.values).filter
    (fun p => decide (400 ≤ p.1) && decide (p.1 ≤ 700))).map Prod.snd

/-- Rank-indexed nested-list model of a numpy ndarray of scalars: a
rank-0 tensor is a scalar, a rank-(n+1) tensor is a list of rank-n
tensors.  A genuine ndarray is rectangular; `Tensor.Reg` captures that.
One divergence inherent to nested lists: numpy records the full shape of
an empty array (for instance (2, 0, 3)) while a nested list cannot, so
`Tensor.shape` reports 0 for every axis below an empty one.  The claims
about shapes only concern arrays whose trailing dimension is 2 or 3,
which such empties never satisfy. -/
@[reducible] def Tensor : Nat → Type
  | 0 => ℚ
  | n + 1 => List (Tensor n)

/-- A default rank-n tensor, used only as the (never-read) default of
list lookups that the claims keep in bounds. -/
def Tensor.dflt : (n : Nat) → Tensor n
  | 0 => 0
  | _ + 1 => []

/-- The `.shape` attribute: each axis length, read along the first
element of every level (numpy arrays are rectangular, so for a regular
tensor any element would do). -/
def Tensor.shape : (n : Nat) → Tensor n → List Nat
  | 0, _ => []
  | n + 1, [] => 0 :: List.replicate n 0
  | n + 1, t :: ts => (ts.length + 1) :: Tensor.shape n t

/-- Rectangularity: every element of a level has the same shape as the
first, recursively.  All numpy ndarrays satisfy this. -/
def Tensor.Reg : (n : Nat) → Tensor n → Bool
  | 0, _ => true
  | _ + 1, [] => true
  | n + 1, t :: ts =>
      Tensor.Reg n t &&
        ts.all (fun s => Tensor.Reg n s && decide (Tensor.shape n s = Tensor.shape n t))

/-- `arr[..., i]`: drop the trailing axis, keeping component `i` of each
innermost tuple.  An out-of-bounds index would raise `IndexError` in
numpy; the claims keep `i` within the trailing dimension, so the list
default is never read. -/
def Tensor.indexLast : (n : Nat) → Tensor (n + 1) → Nat → Tensor n
  | 0, t, i => t.getD i 0
  | n + 1, t, i => t.map (fun s => Tensor.indexLast n s i)

/-- `np.ones(x.shape) * Y`: a constant array with the shape of `x`. -/
def Tensor.constLike : (n : Nat) → Tensor n → ℚ → Tensor n
  | 0, _, c => c
  | n + 1, t, c => t.map (fun s => Tensor.constLike n s c)

/-- `np.stack(comps, axis=len(shape))` for components of equal rank n
and equal shape: a new trailing axis holding the components
element-wise. -/
def Tensor.stackLast : (n : Nat) → List (Tensor n) → Tensor (n + 1)
  | 0, comps => comps
  | n + 1, comps =>
      (List.range (comps.headD []).length).map
        (fun i => Tensor.stackLast n (comps.map (fun t => t.getD i (Tensor.dflt n))))

namespace ND

/-- `xy_to_xyY`, `colorimetry.py` lines 407-434, on arrays of any rank
at least 1: input with trailing dimension 3 (`shape[-1] is 3`; CPython
small-integer identity coincides with equality here) is returned as is;
otherwise the x and y channels are read from the trailing axis, a
constant Y channel of the same shape is built (`np.ones(x.shape) * Y`;
the source's default for the `Y` argument is 1), and the three are
stacked on a new trailing axis. -/
def xy_to_xyY (n : Nat) (xy : Tensor (n + 1)) (Y : ℚ) : Tensor (n + 1) :=
  if (Tensor.shape (n + 1) xy).getLast? = some 3 then xy
  else
    let x := Tensor.indexLast n xy 0
    let y := Tensor.indexLast n xy 1
    let Ya := Tensor.constLike n x Y
    Tensor.stackLast n [x, y, Ya]

/-- `xyY_to_xy`, `colorimetry.py` lines 358-380, on arrays of any rank
at least 1: input with trailing dimension 2 (`shape[-1] is 2`) is
returned as is; otherwise the source executes `x, y, Y = xyY`, which
iterates over the FIRST axis — it succeeds only when the leading
dimension is exactly 3 (raising `ValueError` otherwise) — and stacks
the first two unpacked slices on a new trailing axis. -/
def xyY_to_xy (n : Nat) (xyY : Tensor (n + 1)) : Except PyErr (Tensor (n + 1)) :=
  if (Tensor.shape (n + 1) xyY).getLast? = some 2 then .ok xyY
  else
    match xyY with
    | [a, b, _] => .ok (Tensor.stackLast n [a, b])
    | _ => .error (.valueError "values to unpack mismatch (expected 3)")

/-- `XYZ_to_RGB`, `colorimetry.py` lines 533-550: the body is `pass`, so
the function returns `None` for every input. -/
def XYZ_to_RGB (n : Nat) (_XYZ : Tensor n) : Option (Tensor n) := none

/-- `XYZ_to_sRGB`, `colorimetry.py` lines 552-569: the body is `pass`,
so the function returns `None` for every input. -/
def XYZ_to_sRGB (n : Nat) (_XYZ : Tensor n) : Option (Tensor n) := none

end ND

section FPLemmas

theorem fin_add (a b : ℚ) : q a + q b = q (a + b) := rfl

theorem fin_mul (a b : ℚ) : q a * q b = q (a * b) := rfl

theorem fin_sub (a b : ℚ) : q a - q b = q (a - b) := by
  show FP.fin (a + -b) = FP.fin (a - b)
  rw [← sub_eq_add_neg]

theorem fin_div (a b : ℚ) (hb : b ≠ 0) : q a / q b = q (a / b) := by
  show FP.div (FP.fin a) (FP.fin b) = FP.fin (a / b)
  simp [FP.div, hb]

theorem fin_div_zero (a : ℚ) :
    q a / q 0 = if a = 0 then FP.nan else FP.inf (decide (a < 0)) := by
  show FP.div (FP.fin a) (FP.fin 0) = _
  simp [FP.div]

theorem fin_pown (a : ℚ) (n : Nat) : (q a).pown n = q (a ^ n) := by
  induction n with
  | zero => simp [FP.pown, q]
  | succ n ih =>
      show FP.mul (q a) ((q a).pown n) = q (a ^ (n + 1))
      rw [ih]
      show FP.fin (a * a ^ n) = FP.fin (a ^ (n + 1))
      rw [← pow_succ']

theorem fin_gt (a b : ℚ) : FP.gt (q a) (q b) = decide (b < a) := rfl

theorem divzero_nonFinite (a : ℚ) : FP.nonFinite (q a / q 0) = true := by
  rw [fin_div_zero]
  by_cases h : a = 0 <;> simp [h, FP.nonFinite]

theorem divzero_nan_iff (a : ℚ) : q a / q 0 = FP.nan ↔ a = 0 := by
  rw [fin_div_zero]
  by_cases h : a = 0 <;> simp [h]

end FPLemmas

/-- C1: for every (L, u, v) input triple, `Luv_to_XYZ` computes the Y
component by the exact piecewise rule Y = ((L+16)/116)^3 when L exceeds
the threshold CIE_E * CIE_K (CIE_K = 24389/27, CIE_E = 216/24389) and
Y = L / CIE_K otherwise, and computes the remaining X and Z components
from the D50 reference white X_r = 0.9642, Y_r = 1.0, Z_r = 0.8251. -/
theorem claim_C1_Luv_to_XYZ_piecewise (L : ℚ) (u v : FP) :
    Luv_to_XYZ (q L, u, v) =
      (let Y := if CIE_E * CIE_K < L then q (((L + 16) / 116) ^ 3) else q (L / CIE_K)
       let a := q (1 / 3) *
         ((q 52 * q L / (u + q 13 * q L * (q 4 * q 0.9642 / (q 0.9642 + q 15 * q 1.0 + q 3 * q 0.8251)))) - q 1)
       let b := q (-5) * Y
       let c := q (-1 / 3)
       let d := Y * (q 39 * q L / (v + q 13 * q L * (q 9 * q 1.0 / (q 0.9642 + q 15 * q 1.0 + q 3 * q 0.8251))) - q 5)
       let X := (d - b) / (a - c)
       (X, Y, X * a + b)) := by
  have hY : (if FP.gt (q L) (q (CIE_E * CIE_K)) then ((q L + q 16) / q 116).pown 3 else q L / q CIE_K)
      = (if CIE_E * CIE_K < L then q (((L + 16) / 116) ^ 3) else q (L / CIE_K)) := by
    rw [fin_gt]
    by_cases h : CIE_E * CIE_K < L
    · rw [if_pos (by simpa using h), if_pos h, fin_add, fin_div _ _ (by norm_num), fin_pown]
    · rw [if_neg (by simpa using h), if_neg h, fin_div _ _ (by norm_num [CIE_K])]
  simp only [Luv_to_XYZ, hY]

/-- C2 counterexample: at the input XYZ = (1, 1, -2) the tristimulus sum
X + Y + Z is zero, yet the x chromaticity returned by `XYZ_to_xyY` is
positive infinity, not NaN (numpy: `1.0 / 0.0 = inf`), and `XYZ_to_uv`
returns ordinary finite values because its denominator is
X + 15 Y + 3 Z = 10, not X + Y + Z.  This refutes the claim that every
input with X + Y + Z = 0 makes the affected components NaN. -/
theorem claim_C2_counterexample :
    (XYZ_to_xyY (q 1, q 1, q (-2))).1 = FP.inf false ∧
    (XYZ_to_xyY (q 1, q 1, q (-2))).1 ≠ FP.nan ∧
    (XYZ_to_uv (q 1, q 1, q (-2))).1 = q (2 / 5) ∧
    (XYZ_to_uv (q 1, q 1, q (-2))).2 = q (9 / 10) := by
  have h : q 1 + q 1 + q (-2) = q 0 := by rw [fin_add, fin_add]; norm_num
  have h2 : q 1 + q 15 * q 1 + q 3 * q (-2) = q 10 := by
    rw [fin_mul, fin_mul, fin_add, fin_add]; norm_num
  have hx : (XYZ_to_xyY (q 1, q 1, q (-2))).1 = FP.inf false := by
    simp only [XYZ_to_xyY]
    rw [h, fin_div_zero]
    norm_num
  refine ⟨hx, by rw [hx]; simp, ?_, ?_⟩
  · simp only [XYZ_to_uv]
    rw [h2, fin_mul, fin_div _ _ (by norm_num : (10:ℚ) ≠ 0)]
    norm_num
  · simp only [XYZ_to_uv]
    rw [h2, fin_mul, fin_div _ _ (by norm_num : (10:ℚ) ≠ 0)]
    norm_num

/-- C2 amended: each conversion, on its own zero-denominator inputs
(X + Y + Z = 0 for `XYZ_to_xyY` and `XYZ_to_xy`, X + 15 Y + 3 Z = 0 for
`XYZ_to_uv`, y = 0 for `xyY_to_XYZ`), still completes (the functions are
total and numpy only warns on division by zero) and the affected output
components are non-finite: NaN exactly when the corresponding numerator
is also zero, an infinity otherwise.  The three conditions are
independent implications, so each conversion is covered on all of its
degenerate inputs. -/
theorem claim_C2_zero_denominator_amended (X Y Z x y Yv : ℚ) :
    (X + Y + Z = 0 → ZeroSumBehavior X Y Z) ∧
    (X + 15 * Y + 3 * Z = 0 → ZeroUvDenomBehavior X Y Z) ∧
    (y = 0 → ZeroYBehavior x y Yv) := by
  refine ⟨?_, ?_, ?_⟩
  · intro hS
    have hS2 : q (X + Y + Z) = q 0 := by rw [hS]
    unfold ZeroSumBehavior
    simp only [XYZ_to_xy, xyY_to_xy, XYZ_to_xyY, fin_add, hS2]
    exact ⟨⟨divzero_nonFinite X, divzero_nan_iff X⟩,
      ⟨divzero_nonFinite Y, divzero_nan_iff Y⟩,
      ⟨divzero_nonFinite X, divzero_nan_iff X⟩,
      ⟨divzero_nonFinite Y, divzero_nan_iff Y⟩⟩
  · intro hD
    have hD2 : q (X + 15 * Y + 3 * Z) = q 0 := by rw [hD]
    unfold ZeroUvDenomBehavior
    simp only [XYZ_to_uv, fin_mul, fin_add, hD2]
    refine ⟨⟨divzero_nonFinite (4 * X), ?_⟩, ⟨divzero_nonFinite (9 * Y), ?_⟩⟩
    · rw [divzero_nan_iff, mul_eq_zero]
      simp
    · rw [divzero_nan_iff, mul_eq_zero]
      simp
  · intro hy
    subst hy
    unfold ZeroYBehavior
    simp only [xyY_to_XYZ, fin_mul, fin_sub]
    exact ⟨⟨divzero_nonFinite (x * Yv), divzero_nan_iff (x * Yv)⟩,
      ⟨divzero_nonFinite ((1 - x - 0) * Yv), divzero_nan_iff ((1 - x - 0) * Yv)⟩⟩

/-- C2 amended, witness: each of the three zero-denominator conditions
discharged at its own concrete input - `XYZ_to_xyY` and `XYZ_to_xy` at
(1, 1, -2) where X + Y + Z = 0, `XYZ_to_uv` at (12, -1, 1) where
X + 15 Y + 3 Z = 0, and `xyY_to_XYZ` at (1, 0, 2) where y = 0. -/
theorem claim_C2_zero_denominator_amended_witness :
    (((1 : ℚ) + 1 + (-2) = 0) ∧ ZeroSumBehavior 1 1 (-2)) ∧
    (((12 : ℚ) + 15 * (-1) + 3 * 1 = 0) ∧ ZeroUvDenomBehavior 12 (-1) 1) ∧
    (((0 : ℚ) = 0) ∧ ZeroYBehavior 1 0 2) :=
  ⟨⟨by norm_num,
    (claim_C2_zero_denominator_amended 1 1 (-2) 1 0 2).1 (by norm_num)⟩,
   ⟨by norm_num,
    (claim_C2_zero_denominator_amended 12 (-1) 1 1 0 2).2.1 (by norm_num)⟩,
   ⟨rfl,
    (claim_C2_zero_denominator_amended 0 0 0 1 0 2).2.2 rfl⟩⟩

/-- C3: `Luv_uv_to_xy` inverts the CIE 1976 u-prime v-prime chromaticity
mapping: whenever X + Y + Z and X + 15 Y + 3 Z are both nonzero,
applying `Luv_uv_to_xy` to `XYZ_to_uv` of the triple equals `XYZ_to_xy`
of the triple. -/
theorem claim_C3_uv_inverse (X Y Z : ℚ) (hS : X + Y + Z ≠ 0)
    (hD : X + 15 * Y + 3 * Z ≠ 0) :
    Luv_uv_to_xy (XYZ_to_uv (q X, q Y, q Z)) = XYZ_to_xy (q X, q Y, q Z) := by
  have hsum : q X + q Y + q Z = q (X + Y + Z) := by rw [fin_add, fin_add]
  have hsum2 : q X + q 15 * q Y + q 3 * q Z = q (X + 15 * Y + 3 * Z) := by
    rw [fin_mul, fin_mul, fin_add, fin_add]
  have h36 : (6 * (4 * X / (X + 15 * Y + 3 * Z)) - 16 * (9 * Y / (X + 15 * Y + 3 * Z)) + 12 : ℚ)
      = 36 * (X + Y + Z) / (X + 15 * Y + 3 * Z) := by
    field_simp
    ring
  have h36ne : (36 * (X + Y + Z) / (X + 15 * Y + 3 * Z) : ℚ) ≠ 0 :=
    div_ne_zero (mul_ne_zero (by norm_num) hS) hD
  have hEne : (6 * (4 * X / (X + 15 * Y + 3 * Z)) - 16 * (9 * Y / (X + 15 * Y + 3 * Z)) + 12 : ℚ) ≠ 0 := by
    rw [h36]; exact h36ne
  simp only [Luv_uv_to_xy, XYZ_to_uv, XYZ_to_xy, XYZ_to_xyY, xyY_to_xy, hsum, hsum2,
    fin_mul, fin_div _ _ hD, fin_div _ _ hS, fin_sub, fin_add, fin_div _ _ hEne]
  refine Prod.ext ?_ ?_
  · show FP.fin _ = FP.fin _
    congr 1
    rw [h36, div_eq_div_iff h36ne hS]
    ring
  · show FP.fin _ = FP.fin _
    congr 1
    rw [h36, div_eq_div_iff h36ne hS]
    ring

/-- C3, witness: the round trip evaluated at the concrete triple
(1, 2, 3), whose two denominators are 6 and 40. -/
theorem claim_C3_uv_inverse_witness :
    ((1 : ℚ) + 2 + 3 ≠ 0) ∧ ((1 : ℚ) + 15 * 2 + 3 * 3 ≠ 0) ∧
    Luv_uv_to_xy (XYZ_to_uv (q 1, q 2, q 3)) = XYZ_to_xy (q 1, q 2, q 3) :=
  ⟨by norm_num, by norm_num, claim_C3_uv_inverse 1 2 3 (by norm_num) (by norm_num)⟩

/-- Helper for C7: on a sorted wavelength list paired index-wise with a
value list of the same length, the numpy slice
`vals[searchsorted(wvl, lo) : searchsorted(wvl, hi)]` is exactly the
list of values whose wavelength lies in the half-open window
[lo, hi). -/
theorem slice_eq_filter (lo hi : ℚ) (hlh : lo ≤ hi) :
    ∀ (w v : List ℚ), w.Pairwise (fun a b => a ≤ b) → w.length = v.length →
    (v.drop (w.countP (fun t => decide (t < lo)))).take
        (w.countP (fun t => decide (t < hi)) - w.countP (fun t => decide (t < lo)))
      = ((w.zip v).filter (fun p => decide (lo ≤ p.1) && decide (p.1 < hi))).map Prod.snd := by
  intro w
  induction w with
  | nil => intro v _ _; simp
  | cons a w ih =>
    intro v hsort hlen
    match v with
    | [] => simp at hlen
    | b :: v =>
      rw [List.pairwise_cons] at hsort
      obtain ⟨ha, hsort2⟩ := hsort
      simp only [List.length_cons] at hlen
      have hlen2 : w.length = v.length := by omega
      by_cases h1 : a < lo
      · have h2 : a < hi := lt_of_lt_of_le h1 hlh
        have c1 : List.countP (fun t => decide (t < lo)) (a :: w)
            = List.countP (fun t => decide (t < lo)) w + 1 := by
          simp [List.countP_cons, h1]
        have c2 : List.countP (fun t => decide (t < hi)) (a :: w)
            = List.countP (fun t => decide (t < hi)) w + 1 := by
          simp [List.countP_cons, h2]
        rw [c1, c2, Nat.add_sub_add_right, List.drop_succ_cons, List.zip_cons_cons,
          List.filter_cons_of_neg (by simp [not_le.mpr h1])]
        exact ih v hsort2 hlen2
      · have hla : lo ≤ a := not_lt.mp h1
        have c1 : List.countP (fun t => decide (t < lo)) (a :: w)
            = List.countP (fun t => decide (t < lo)) w := by
          simp [List.countP_cons, h1]
        have c1z : List.countP (fun t => decide (t < lo)) w = 0 := by
          rw [List.countP_eq_zero]
          intro t ht
          simp only [decide_eq_true_eq]
          exact not_lt.mpr (hla.trans (ha t ht))
        by_cases h2 : a < hi
        · have c2 : List.countP (fun t => decide (t < hi)) (a :: w)
              = List.countP (fun t => decide (t < hi)) w + 1 := by
            simp [List.countP_cons, h2]
          have ihx := ih v hsort2 hlen2
          rw [c1z, List.drop_zero, Nat.sub_zero] at ihx
          rw [c1, c1z, c2, Nat.sub_zero, List.drop_zero, List.take_succ_cons,
            List.zip_cons_cons, List.filter_cons_of_pos (by simp [hla, h2]),
            List.map_cons, ihx]
        · have hha : hi ≤ a := not_lt.mp h2
          have c2 : List.countP (fun t => decide (t < hi)) (a :: w)
              = List.countP (fun t => decide (t < hi)) w := by
            simp [List.countP_cons, h2]
          have c2z : List.countP (fun t => decide (t < hi)) w = 0 := by
            rw [List.countP_eq_zero]
            intro t ht
            simp only [decide_eq_true_eq]
            exact not_lt.mpr (hha.trans (ha t ht))
          have hfil : (w.zip v).filter (fun p => decide (lo ≤ p.1) && decide (p.1 < hi)) = [] := by
            rw [List.filter_eq_nil_iff]
            intro p hp
            simp only [Bool.and_eq_true, decide_eq_true_eq, not_and]
            intro _
            exact not_lt.mpr (hha.trans (ha p.1 (List.of_mem_zip hp).1))
          rw [c1, c1z, c2, c2z, Nat.sub_zero, List.take_zero, List.zip_cons_cons,
            List.filter_cons_of_neg (by simp [h2]), hfil]
          simp

/-- C6 counterexample: `Spectrum.__init__` performs no equal-length
check, so unequal-length inputs do produce a `Spectrum` whose arrays
differ in length, refuting the claim that construction establishes the
equal-length invariant. -/
theorem claim_C6_counterexample :
    (Spectrum.mk [400, 500, 600] [1, 2]).wavelengths.length ≠
    (Spectrum.mk [400, 500, 600] [1, 2]).values.length := by decide

/-- C6 amended: a Spectrum pairs wavelengths and values by index but the
constructor performs no equal-length check; equal length is a caller
obligation, and the one Spectrum-producing operation
(`normalize_spectrum`) preserves the wavelengths array and the length of
the values array, so it maintains the invariant when it holds. -/
theorem claim_C6_length_amended (s t : Spectrum) (h : normalize_spectrum s = .ok t) :
    t.wavelengths = s.wavelengths ∧ t.values.length = s.values.length ∧
    (s.wavelengths.length = s.values.length → t.wavelengths.length = t.values.length) := by
  simp only [normalize_spectrum] at h
  split at h
  · exact absurd h (by simp)
  · rw [Except.ok.injEq] at h
    subst h
    refine ⟨rfl, by simp, ?_⟩
    intro he
    simp [he]

/-- C6 amended, witness: normalization of the spectrum with wavelengths
[400, 500] and values [1, 2] succeeds and preserves both lengths. -/
theorem claim_C6_length_amended_witness :
    (Spectrum.mk [400, 500] [(1 : ℚ)/2, 1]).wavelengths
      = (Spectrum.mk [400, 500] [1, 2]).wavelengths ∧
    (Spectrum.mk [400, 500] [(1 : ℚ)/2, 1]).values.length
      = (Spectrum.mk [400, 500] [1, 2]).values.length ∧
    ((Spectrum.mk [400, 500] [1, 2]).wavelengths.length
        = (Spectrum.mk [400, 500] [1, 2]).values.length →
      (Spectrum.mk [400, 500] [(1 : ℚ)/2, 1]).wavelengths.length
        = (Spectrum.mk [400, 500] [(1 : ℚ)/2, 1]).values.length) :=
  claim_C6_length_amended ⟨[400, 500], [1, 2]⟩ ⟨[400, 500], [1/2, 1]⟩
    (by norm_num [normalize_spectrum, searchsorted, listMax, List.countP_cons])

/-- C7 counterexample: for the sorted spectrum with wavelengths
[400, 500, 700] and values [1, 2, 10], the maximum value attained in the
closed 400-700 nm window is 10 (at 700 nm), yet the code divides by 2:
`searchsorted` with side left excludes the wavelength 700 from the
slice, so the first normalized value is 1/2 and not 1/10. -/
theorem claim_C7_counterexample :
    listMax (closedWindowValues ⟨[400, 500, 700], [1, 2, 10]⟩) = 10 ∧
    normalize_spectrum ⟨[400, 500, 700], [1, 2, 10]⟩
      = .ok ⟨[400, 500, 700], [1/2, 1, 5]⟩ ∧
    ((1 : ℚ)/2) ≠ 1/10 := by
  refine ⟨?_, ?_, by norm_num⟩
  · norm_num [closedWindowValues, listMax, List.filter]
  · norm_num [normalize_spectrum, searchsorted, listMax, List.countP_cons]

/-- C7 amended: for every Spectrum with sorted wavelengths, index-paired
arrays of equal length and a non-empty half-open 400-700 nm window,
`normalize_spectrum` returns a new Spectrum with the same wavelengths
and every value divided by the maximum value attained at wavelengths w
with 400 <= w < 700 (the wavelength 700 itself is excluded); the input
is left unchanged (the function is pure and builds a new Spectrum). -/
theorem claim_C7_window_amended (s : Spectrum)
    (hsort : s.wavelengths.Pairwise (fun a b => a ≤ b))
    (hlen : s.wavelengths.length = s.values.length)
    (hne : visibleWindowValues s ≠ []) :
    normalize_spectrum s =
      .ok ⟨s.wavelengths, s.values.map (fun t => t / listMax (visibleWindowValues s))⟩ := by
  have hslice := slice_eq_filter 400 700 (by norm_num) s.wavelengths s.values hsort hlen
  obtain ⟨v0, vs0, hv⟩ := List.exists_cons_of_ne_nil hne
  simp only [normalize_spectrum, searchsorted]
  rw [hslice]
  have hvv : ((s.wavelengths.zip s.values).filter
      (fun p => decide (400 ≤ p.1) && decide (p.1 < 700))).map Prod.snd
      = visibleWindowValues s := rfl
  rw [hvv, hv]

/-- C7 amended, witness: normalization of the sorted spectrum with
wavelengths [400, 500] and values [1, 2], whose visible window is
non-empty. -/
theorem claim_C7_window_amended_witness :
    ([400, 500] : List ℚ).Pairwise (fun a b => a ≤ b) ∧
    ([400, 500] : List ℚ).length = ([1, 2] : List ℚ).length ∧
    visibleWindowValues ⟨[400, 500], [1, 2]⟩ ≠ [] ∧
    normalize_spectrum ⟨[400, 500], [1, 2]⟩ =
      .ok ⟨[400, 500], ([1, 2] : List ℚ).map
        (fun t => t / listMax (visibleWindowValues ⟨[400, 500], [1, 2]⟩))⟩ :=
  ⟨by norm_num [List.pairwise_cons], rfl,
    by rw [show visibleWindowValues ⟨[400, 500], [1, 2]⟩ = [1, 2] from by
        norm_num [visibleWindowValues, List.filter]]; simp,
    claim_C7_window_amended ⟨[400, 500], [1, 2]⟩ (by norm_num [List.pairwise_cons]) rfl
      (by rw [show visibleWindowValues ⟨[400, 500], [1, 2]⟩ = [1, 2] from by
        norm_num [visibleWindowValues, List.filter]]; simp)⟩

/-- C4: with the colour dependency absent, module import still succeeds
and pure Spectrum usage works, and `CIEXYZ.from_spectrum` and
`CIEXYZ.to_xy` do signal the descriptive missing-dependency
`ImportError` through `check_colour`; but `CIELUV.from_XYZ` and
`CIELUV.to_uv` never call `check_colour` and instead fail with
`NameError` (the unbound global `colour`), which is not an import-error
kind.  This demonstrates the code bug behind the claim. -/
theorem claim_C4_missing_dependency_bug :
    (∀ b : Bool, colorimetry_module_init b = .ok ()) ∧
    normalize_spectrum ⟨[400, 500], [1, 2]⟩ = .ok ⟨[400, 500], [1/2, 1]⟩ ∧
    isImportError (CIEXYZ.from_spectrum false ⟨[400, 500], [1, 2]⟩) = true ∧
    isImportError (CIEXYZ.to_xy false ⟨1, 1, 1⟩) = true ∧
    CIELUV.from_XYZ false none (some 1) (some 1) (some 1)
      = .error (.nameError "name colour is not defined") ∧
    isImportError (CIELUV.from_XYZ false none (some 1) (some 1) (some 1)) = false ∧
    CIELUV.to_uv false ⟨1, 1, some 1⟩
      = .error (.nameError "name colour is not defined") ∧
    isImportError (CIELUV.to_uv false ⟨1, 1, some 1⟩) = false := by
  refine ⟨?_, ?_, rfl, rfl, rfl, rfl, rfl, rfl⟩
  · intro b
    cases b <;> rfl
  · norm_num [normalize_spectrum, searchsorted, listMax, List.countP_cons]

/-- C9: `CIELUV.from_XYZ` raises `ValueError` if and only if `ciexyz` is
`None` and `x`, `y`, `z` are all `None`; when `ciexyz` is supplied the
`x`, `y`, `z` arguments are ignored and the coordinates are taken from
the `ciexyz` object (the call equals passing that object's coordinates
explicitly); when `ciexyz` is `None` and at least one coordinate is
given, the argument check raises nothing. -/
theorem claim_C9_from_XYZ_argcheck (c : Option CIEXYZ) (x y z : Option ℚ) :
    (isValueError (CIELUV.from_XYZ true c x y z) = true
      ↔ (c = none ∧ x = none ∧ y = none ∧ z = none)) ∧
    (∀ c0 : CIEXYZ, CIELUV.from_XYZ true (some c0) x y z
      = CIELUV.from_XYZ true none (some c0.x) (some c0.y) (some c0.z)) := by
  constructor
  · cases c with
    | some c0 => simp [CIELUV.from_XYZ, colour_XYZ_to_Luv, isValueError]
    | none =>
        by_cases h : x = none ∧ y = none ∧ z = none
        · have hv : isValueError (CIELUV.from_XYZ true none x y z) = true := by
            obtain ⟨hx, hy, hz⟩ := h
            subst hx; subst hy; subst hz
            rfl
          exact iff_of_true hv ⟨rfl, h⟩
        · have hv : isValueError (CIELUV.from_XYZ true none x y z) = false := by
            simp only [CIELUV.from_XYZ, if_neg h]
            rfl
          exact iff_of_false (by simp [hv]) (fun hc => h hc.2)
  · intro c0
    rfl

/-- Helper: the length of a tensor shape is the rank. -/
theorem tensor_shape_length : ∀ (n : Nat) (t : Tensor n), (Tensor.shape n t).length = n := by
  intro n
  induction n with
  | zero => intro t; rfl
  | succ n ih =>
      intro t
      match t with
      | [] => simp [Tensor.shape]
      | s :: ts => simp [Tensor.shape, ih s]

/-- Helper: last entry of the all-zero shape of an empty tensor. -/
theorem cons_replicate_getLast (n : Nat) :
    (0 :: List.replicate n (0 : Nat)).getLast? = some 0 := by
  induction n with
  | zero => rfl
  | succ n ih =>
      rw [List.replicate_succ, List.getLast?_cons_cons]
      exact ih

/-- Helper: dropping the last entry of a zero replicate. -/
theorem replicate_dropLast (n : Nat) :
    (List.replicate (n + 1) (0 : Nat)).dropLast = List.replicate n 0 := by
  induction n with
  | zero => rfl
  | succ n ih =>
      rw [List.replicate_succ, List.dropLast_cons_of_ne_nil (by simp), ih,
        ← List.replicate_succ]

/-- Helper: a tensor whose trailing dimension is nonzero has every axis
length positive (an empty axis would force all later reported axis
lengths to 0). -/
theorem tensor_shape_pos : ∀ (n : Nat) (t : Tensor n) (k : Nat),
    (Tensor.shape n t).getLast? = some k → k ≠ 0 → ∀ d ∈ Tensor.shape n t, 0 < d := by
  intro n
  induction n with
  | zero => intro t k h _; cases h
  | succ n ih =>
      intro t k hlast hk d hd
      match t with
      | [] =>
          rw [show Tensor.shape (n+1) ([] : Tensor (n+1)) = 0 :: List.replicate n 0 from rfl,
            cons_replicate_getLast] at hlast
          cases hlast
          exact absurd rfl hk
      | s :: ts =>
          rw [show Tensor.shape (n+1) (s :: ts) = (ts.length + 1) :: Tensor.shape n s from rfl]
            at hlast hd
          rcases List.mem_cons.mp hd with h | h
          · omega
          · have hlast2 : (Tensor.shape n s).getLast? = some k := by
              rcases hsh : Tensor.shape n s with _ | ⟨c, cs⟩
              · rw [hsh] at h; cases h
              · rw [hsh, List.getLast?_cons_cons] at hlast
                exact hlast
            exact ih s k hlast2 hk d h

/-- Helper: every element of a regular tensor is regular and has the
tail of the enclosing shape. -/
theorem tensor_reg_mem : ∀ (n : Nat) (t : Tensor (n + 1)),
    Tensor.Reg (n + 1) t = true → ∀ s ∈ t, Tensor.Reg n s = true ∧
      Tensor.shape n s = (Tensor.shape (n + 1) t).tail := by
  intro n t hreg s hs
  match t with
  | [] => cases hs
  | x :: ts =>
      simp only [Tensor.Reg, Bool.and_eq_true, List.all_eq_true, decide_eq_true_eq] at hreg
      obtain ⟨hx, hts⟩ := hreg
      rw [show Tensor.shape (n + 1) (x :: ts) = (ts.length + 1) :: Tensor.shape n x from rfl]
      rcases List.mem_cons.mp hs with h | h
      · subst h
        exact ⟨hx, rfl⟩
      · obtain ⟨h1, h2⟩ := hts s h
        exact ⟨h1, h2⟩

/-- Helper: the shape of a cons level. -/
theorem tensor_shape_cons (n : Nat) (a : Tensor n) (l : List (Tensor n)) :
    Tensor.shape (n + 1) (a :: l) = (l.length + 1) :: Tensor.shape n a := rfl

/-- Helper: the recursion step of `Tensor.stackLast`. -/
theorem tensor_stackLast_succ (n : Nat) (comps : List (Tensor (n + 1))) :
    Tensor.stackLast (n + 1) comps = (List.range (comps.headD []).length).map
      (fun i => Tensor.stackLast n (comps.map (fun t => t.getD i (Tensor.dflt n)))) := rfl

/-- Helper: indexing the trailing axis of a regular tensor drops the
last entry of its shape. -/
theorem tensor_indexLast_shape : ∀ (n : Nat) (t : Tensor (n + 1)) (i : Nat),
    Tensor.Reg (n + 1) t = true →
    Tensor.shape n (Tensor.indexLast n t i) = (Tensor.shape (n + 1) t).dropLast := by
  intro n
  induction n with
  | zero =>
      intro t i _
      match t with
      | [] => rfl
      | x :: ts => rfl
  | succ n ih =>
      intro t i hreg
      match t with
      | [] =>
          rw [show Tensor.indexLast (n+1) ([] : Tensor (n+2)) i = ([] : Tensor (n+1)) from rfl]
          rw [show Tensor.shape (n+1) ([] : Tensor (n+1)) = 0 :: List.replicate n 0 from rfl]
          rw [show Tensor.shape (n+2) ([] : Tensor (n+2)) = 0 :: List.replicate (n+1) 0 from rfl]
          rw [List.dropLast_cons_of_ne_nil (by simp), replicate_dropLast]
      | x :: ts =>
          have hx_reg : Tensor.Reg (n+1) x = true :=
            (tensor_reg_mem (n+1) (x :: ts) hreg x (by simp)).1
          have hx_ne : Tensor.shape (n+1) x ≠ [] := by
            have hl := tensor_shape_length (n+1) x
            intro hc
            rw [hc] at hl
            simp at hl
          rw [show Tensor.indexLast (n+1) (x :: ts) i
            = Tensor.indexLast n x i :: ts.map (fun s => Tensor.indexLast n s i) from rfl]
          rw [tensor_shape_cons, List.length_map, ih x i hx_reg]
          rw [tensor_shape_cons, List.dropLast_cons_of_ne_nil hx_ne]

/-- Helper: indexing the trailing axis preserves regularity. -/
theorem tensor_indexLast_reg : ∀ (n : Nat) (t : Tensor (n + 1)) (i : Nat),
    Tensor.Reg (n + 1) t = true → Tensor.Reg n (Tensor.indexLast n t i) = true := by
  intro n
  induction n with
  | zero => intro t i _; rfl
  | succ n ih =>
      intro t i hreg
      match t with
      | [] => rfl
      | x :: ts =>
          have hmem := tensor_reg_mem (n+1) (x :: ts) hreg
          have hx_reg := (hmem x (by simp)).1
          rw [show Tensor.indexLast (n+1) (x :: ts) i
            = Tensor.indexLast n x i :: ts.map (fun s => Tensor.indexLast n s i) from rfl]
          simp only [Tensor.Reg, Bool.and_eq_true, List.all_eq_true, decide_eq_true_eq]
          refine ⟨ih x i hx_reg, ?_⟩
          intro s2 hs2
          obtain ⟨s, hs, rfl⟩ := List.mem_map.mp hs2
          have hs_reg := (hmem s (by simp [hs])).1
          refine ⟨ih s i hs_reg, ?_⟩
          rw [tensor_indexLast_shape n s i hs_reg, tensor_indexLast_shape n x i hx_reg,
            (hmem s (by simp [hs])).2, (hmem x (by simp)).2]

/-- Helper: a constant fill keeps the template's shape. -/
theorem tensor_constLike_shape : ∀ (n : Nat) (t : Tensor n) (c : ℚ),
    Tensor.shape n (Tensor.constLike n t c) = Tensor.shape n t := by
  intro n
  induction n with
  | zero => intro t c; rfl
  | succ n ih =>
      intro t c
      match t with
      | [] => rfl
      | x :: ts =>
          rw [show Tensor.constLike (n+1) (x :: ts) c
            = Tensor.constLike n x c :: ts.map (fun s => Tensor.constLike n s c) from rfl]
          rw [tensor_shape_cons, List.length_map, ih x c]
          rfl

/-- Helper: a constant fill keeps regularity. -/
theorem tensor_constLike_reg : ∀ (n : Nat) (t : Tensor n) (c : ℚ),
    Tensor.Reg n t = true → Tensor.Reg n (Tensor.constLike n t c) = true := by
  intro n
  induction n with
  | zero => intro t c _; rfl
  | succ n ih =>
      intro t c hreg
      match t with
      | [] => rfl
      | x :: ts =>
          have hmem := tensor_reg_mem n (x :: ts) hreg
          rw [show Tensor.constLike (n+1) (x :: ts) c
            = Tensor.constLike n x c :: ts.map (fun s => Tensor.constLike n s c) from rfl]
          simp only [Tensor.Reg, Bool.and_eq_true, List.all_eq_true, decide_eq_true_eq]
          refine ⟨ih x c (hmem x (by simp)).1, ?_⟩
          intro s2 hs2
          obtain ⟨s, hs, rfl⟩ := List.mem_map.mp hs2
          refine ⟨ih s c (hmem s (by simp [hs])).1, ?_⟩
          rw [tensor_constLike_shape n s c, tensor_constLike_shape n x c,
            (hmem s (by simp [hs])).2, (hmem x (by simp)).2]

/-- Helper: stacking k same-shaped regular tensors of all-positive shape
S on a new trailing axis yields shape S ++ [k]. -/
theorem tensor_stackLast_shape : ∀ (n : Nat) (comps : List (Tensor n)) (S : List Nat),
    comps ≠ [] →
    (∀ c ∈ comps, Tensor.shape n c = S) →
    (∀ c ∈ comps, Tensor.Reg n c = true) →
    (∀ d ∈ S, 0 < d) →
    Tensor.shape (n + 1) (Tensor.stackLast n comps) = S ++ [comps.length] := by
  intro n
  induction n with
  | zero =>
      intro comps S hne hsh _ _
      obtain ⟨c, cs, rfl⟩ := List.exists_cons_of_ne_nil hne
      have hS : S = [] := (hsh c (by simp)).symm
      subst hS
      rw [show Tensor.stackLast 0 (c :: cs) = (c :: cs : Tensor 1) from rfl,
        tensor_shape_cons]
      simp [Tensor.shape]
  | succ n ih =>
      intro comps S hne hsh hreg hpos
      obtain ⟨c, cs, rfl⟩ := List.exists_cons_of_ne_nil hne
      have hSc : Tensor.shape (n + 1) c = S := hsh c (by simp)
      cases c with
      | nil =>
          exfalso
          rw [show Tensor.shape (n+1) ([] : Tensor (n+1)) = 0 :: List.replicate n 0 from rfl]
            at hSc
          have h0 : (0 : Nat) ∈ S := by rw [← hSc]; simp
          have := hpos 0 h0
          omega
      | cons x ts =>
          rw [tensor_shape_cons] at hSc
          have hS : S = (ts.length + 1) :: Tensor.shape n x := hSc.symm
          subst hS
          have hkey : ∀ t ∈ (x :: ts) :: cs,
              Tensor.shape n (t.getD 0 (Tensor.dflt n)) = Tensor.shape n x ∧
              Tensor.Reg n (t.getD 0 (Tensor.dflt n)) = true := by
            intro t ht
            have hsh_t := hsh t ht
            have hreg_t := hreg t ht
            cases t with
            | nil =>
                exfalso
                rw [show Tensor.shape (n+1) ([] : Tensor (n+1))
                  = 0 :: List.replicate n 0 from rfl] at hsh_t
                injection hsh_t with h1 h2
                omega
            | cons y ys =>
                have hy := tensor_reg_mem n (y :: ys) hreg_t y (by simp)
                rw [tensor_shape_cons] at hsh_t
                constructor
                · rw [show (y :: ys).getD 0 (Tensor.dflt n) = y from rfl, hy.2,
                    tensor_shape_cons, List.tail_cons]
                  injection hsh_t with h1 h2
                · rw [show (y :: ys).getD 0 (Tensor.dflt n) = y from rfl]
                  exact hy.1
          have hstep := ih (((x :: ts) :: cs).map (fun t => t.getD 0 (Tensor.dflt n)))
            (Tensor.shape n x)
            (by simp)
            (by intro c2 hc2
                obtain ⟨t, ht, rfl⟩ := List.mem_map.mp hc2
                exact (hkey t ht).1)
            (by intro c2 hc2
                obtain ⟨t, ht, rfl⟩ := List.mem_map.mp hc2
                exact (hkey t ht).2)
            (by intro d hd
                exact hpos d (by simp [hd]))
          rw [List.length_map] at hstep
          rw [tensor_stackLast_succ]
          rw [show ((((x :: ts) :: cs).headD []).length) = ts.length + 1 from rfl]
          rw [List.range_succ_eq_map, List.map_cons, tensor_shape_cons]
          rw [List.length_map, List.length_map, List.length_range]
          rw [hstep]
          simp

/-- C5: the source of `xyY_to_xy` unpacks `x, y, Y = xyY` along the
FIRST axis instead of reading the trailing axis, so a 2-D grid of
triples (here shape (2, 3)) raises `ValueError` instead of returning the
x and y channels; a single rank-1 triple happens to work because its
first axis is its trailing axis, and trailing-dimension-2 input is
returned unchanged.  This demonstrates the code bug: the claim (and the
module's own vectorization intent, used by `XYZ_to_xy`) requires the
trailing-axis behaviour for any leading shape. -/
theorem claim_C5_unpack_code_bug :
    ND.xyY_to_xy 1 [[1, 2, 3], [4, 5, 6]]
      = .error (.valueError "values to unpack mismatch (expected 3)") ∧
    ND.xyY_to_xy 0 [1, 2, 10] = .ok [1, 2] ∧
    ND.xyY_to_xy 1 [[1, 2], [3, 4]] = .ok [[1, 2], [3, 4]] :=
  ⟨rfl, rfl, rfl⟩

/-- C8: `XYZ_to_RGB` and `XYZ_to_sRGB` are unimplemented no-ops whose
body is `pass`: for every input, of any rank, they return `None` and
have no effect. -/
theorem claim_C8_rgb_stubs (n : Nat) (t : Tensor n) :
    ND.XYZ_to_RGB n t = none ∧ ND.XYZ_to_sRGB n t = none := ⟨rfl, rfl⟩

/-- C10: `xy_to_xyY` returns any input whose trailing dimension is 3
unchanged, regardless of the Y argument, and is therefore idempotent on
(regular) arrays with trailing dimension 2: a second application, with
any Y value, returns the first application's result unchanged because
that result has trailing dimension 3. -/
theorem claim_C10_xy_to_xyY_idempotent (n m : Nat) (a3 : Tensor (n + 1))
    (a2 : Tensor (m + 1)) (Y1 Y2 Y3 : ℚ)
    (h3 : (Tensor.shape (n + 1) a3).getLast? = some 3)
    (hreg : Tensor.Reg (m + 1) a2 = true)
    (h2 : (Tensor.shape (m + 1) a2).getLast? = some 2) :
    ND.xy_to_xyY n a3 Y3 = a3 ∧
    ND.xy_to_xyY m (ND.xy_to_xyY m a2 Y1) Y2 = ND.xy_to_xyY m a2 Y1 := by
  constructor
  · simp [ND.xy_to_xyY, h3]
  · have hne3 : ¬ ((Tensor.shape (m + 1) a2).getLast? = some 3) := by rw [h2]; simp
    have hx_reg := tensor_indexLast_reg m a2 0 hreg
    have hy_reg := tensor_indexLast_reg m a2 1 hreg
    have hx_sh := tensor_indexLast_shape m a2 0 hreg
    have hy_sh := tensor_indexLast_shape m a2 1 hreg
    have hpos : ∀ d ∈ Tensor.shape (m + 1) a2, 0 < d :=
      tensor_shape_pos (m + 1) a2 2 h2 (by norm_num)
    have hpos2 : ∀ d ∈ (Tensor.shape (m + 1) a2).dropLast, 0 < d :=
      fun d hd => hpos d ((List.dropLast_sublist _).subset hd)
    have hstack := tensor_stackLast_shape m
      [Tensor.indexLast m a2 0, Tensor.indexLast m a2 1,
        Tensor.constLike m (Tensor.indexLast m a2 0) Y1]
      ((Tensor.shape (m + 1) a2).dropLast)
      (by simp)
      (by intro c hc
          simp only [List.mem_cons, List.not_mem_nil, or_false] at hc
          rcases hc with rfl | rfl | rfl
          · exact hx_sh
          · exact hy_sh
          · rw [tensor_constLike_shape]; exact hx_sh)
      (by intro c hc
          simp only [List.mem_cons, List.not_mem_nil, or_false] at hc
          rcases hc with rfl | rfl | rfl
          · exact hx_reg
          · exact hy_reg
          · exact tensor_constLike_reg m (Tensor.indexLast m a2 0) Y1 hx_reg)
      hpos2
    have h3r : (Tensor.shape (m + 1) (Tensor.stackLast m
        [Tensor.indexLast m a2 0, Tensor.indexLast m a2 1,
          Tensor.constLike m (Tensor.indexLast m a2 0) Y1])).getLast? = some 3 := by
      rw [hstack]
      rw [show ([Tensor.indexLast m a2 0, Tensor.indexLast m a2 1,
        Tensor.constLike m (Tensor.indexLast m a2 0) Y1].length) = 3 from rfl]
      exact List.getLast?_concat _
    have happ1 : ND.xy_to_xyY m a2 Y1 = Tensor.stackLast m
        [Tensor.indexLast m a2 0, Tensor.indexLast m a2 1,
          Tensor.constLike m (Tensor.indexLast m a2 0) Y1] := by
      simp only [ND.xy_to_xyY, if_neg hne3]
    rw [happ1]
    simp only [ND.xy_to_xyY, if_pos h3r]

/-- C10, witness: the rank-2 trailing-3 array [[1,2,3]] is returned
unchanged, and applying `xy_to_xyY` twice to the regular trailing-2
array [[1,2],[3,4]] (with Y arguments 7 then 9) equals applying it
once. -/
theorem claim_C10_xy_to_xyY_idempotent_witness :
    (Tensor.shape 2 ([[1, 2, 3]] : Tensor 2)).getLast? = some 3 ∧
    Tensor.Reg 2 ([[1, 2], [3, 4]] : Tensor 2) = true ∧
    (Tensor.shape 2 ([[1, 2], [3, 4]] : Tensor 2)).getLast? = some 2 ∧
    (ND.xy_to_xyY 1 [[1, 2, 3]] 7 = [[1, 2, 3]] ∧
      ND.xy_to_xyY 1 (ND.xy_to_xyY 1 [[1, 2], [3, 4]] 7) 9
        = ND.xy_to_xyY 1 [[1, 2], [3, 4]] 7) :=
  ⟨rfl, rfl, rfl,
    claim_C10_xy_to_xyY_idempotent 1 1 [[1, 2, 3]] [[1, 2], [3, 4]] 7 9 7 rfl rfl rfl⟩

end Colorimetry

